import Mathlib

/-! # isolock: a shallow embedding of `src/isolock.cpp`

The broker arbitrates numbered sandbox boxes through two directories of
pidlock files, `lock/<b>.pidlock` and `free/<b>.pidlock`.  This development
embeds the pidlock protocol (`freelock`, `releaselocked`, `panic`, `valid`,
`validate`, `validate_option`, `valid_lock`, `lock_box`, `getfreelocks`,
`scanlocks`, `getlocks`) and the driver `main` after option parsing.

Modelling conventions.

* A pidlock file is the list of the `<pid>:<starttime>` lines that
  `fscanf(file, "%d:%lld\n", ...)` reads from it; files holding text that is
  not of this shape are outside the model.
* Paths are keyed by the box number that `sprintf` puts into them.
* Everything the program asks of its environment (process table, `/proc`,
  permissions, `rand`, `scandir` order, `system` status) is a field of
  `World`; the environment does not change during a sequential run.
* A function that can reach `panic` or a loop that need not terminate takes
  a `fuel : Nat`; `none` means the fuel ran out before the call finished.
-/

namespace Isolock

/-! ## Data model -/

/-- One line `<pid>:<starttime>` of a pidlock file.  `starttime` is the 64-bit
value that `fscanf` stores in `long long starttime`, read the way
`valid_lock` and the comparison with `pid_starttime` see it, as an
`unsigned long long`. -/
structure Entry where
  pid : Int
  starttime : Nat
deriving DecidableEq, Repr

/-- The content of a pidlock file: its lines, first line first. -/
abbrev PidFile := List Entry

/-- The lines the broker writes to stderr, one constructor per format string
of the source. -/
inductive Msg where
  /-- The line "Could not access lock file for box_id=%d.\n" -/
  | couldNotAccess (box_id : Int)
  /-- The line "Invalid pidlock file data for box_id=%d.\n" -/
  | invalidPidlock (box_id : Int)
  /-- The line "Cannot unlock box_id=%d - it does not belong to you.\n" -/
  | notYours (box_id : Int)
  /-- The line "Could not remove lock on box_id=%d - user has insufficient privileges.\n" -/
  | insufficientPrivileges (box_id : Int)
  /-- The line "%d is an invalid box_id.\n" -/
  | invalidBoxId (box_id : Int)
  /-- The message for the option "--": it "is an invalid option.\n" -/
  | invalidDashDash
  /-- The message for any other rejected option `s`: it "is an invalid option.\n" -/
  | invalidOption (s : List Char)
  /-- The line "Could not open file. Check user permissions.\n" -/
  | couldNotOpen
  /-- The line "Isolate box %d unavailable.\n" -/
  | unavailable (box_id : Int)
  /-- The line "Insufficient isolate boxes available.\n" -/
  | insufficientBoxes
  /-- The line "Could not acquire %d locks, but could not release the %u acquired locks.\n" -/
  | couldNotAcquire (n : Int) (held : Nat)
  /-- The line "Lock acquired, but ... command failed.\n" for the init command of a box. -/
  | initFailed (optstring : List Char) (box_id : Int)
  /-- The line "No box_id was specified - cannot free lock.\n" -/
  | noBoxId
  /-- The line "Unknown mode.\n" -/
  | unknownMode
  /-- The usage text. -/
  | usage
deriving DecidableEq, Repr

/-- The commands handed to `system`. -/
inductive Cmd where
  /-- The command "isolate -b%d --cleanup 2>/dev/null 1>&2" when `optstring` is `none`,
  "isolate %s -b%d --cleanup 2>/dev/null 1>&2" otherwise. -/
  | cleanup (optstring : Option (List Char)) (box_id : Int)
  /-- The command "isolate %s -b%d --init 2>/dev/null 1>&2". -/
  | init (optstring : List Char) (box_id : Int)
deriving DecidableEq, Repr

/-- What reading `/proc/<pid>/stat` in `get_starttime` gives. -/
inductive StatRead where
  /-- The call of `fopen` returned `NULL`. -/
  | missing
  /-- The file opened but `fscanf` did not convert the 22nd field. -/
  | garbled
  /-- The start time was read. -/
  | ok (starttime : Nat)
deriving DecidableEq, Repr

/-- The environment of one broker invocation, fixed once `init()` has run. -/
structure World where
  /-- The global `isolate_boxes`. -/
  isolate_boxes : Int
  /-- The value of `getpid()`. -/
  pid : Int
  /-- The global `ppid`. -/
  ppid : Int
  /-- The global `pid_starttime`. -/
  pid_starttime : Nat
  /-- The global `ppid_starttime`. -/
  ppid_starttime : Nat
  /-- Whether `kill(pid, 0)` returns 0. -/
  kill0 : Int → Bool
  /-- The outcome of reading `/proc/<pid>/stat`. -/
  procStat : Int → StatRead
  /-- Whether `fopen(lock/<b>.pidlock, "a+")` succeeds. -/
  fopenLockAppend : Int → Bool
  /-- Whether `fopen(lock/<b>.pidlock, "r")` is permitted when the file exists. -/
  fopenLockRead : Int → Bool
  /-- Whether `fopen(free/<b>.pidlock, "w")` succeeds. -/
  fopenFreeWrite : Int → Bool
  /-- Whether `rename(free/<b>.pidlock, lock/<b>.pidlock)` returns 0. -/
  renameFreeToLock : Int → Bool
  /-- Whether `rename(lock/<b>.pidlock, free/<b>.pidlock)` returns 0. -/
  renameLockToFree : Int → Bool
  /-- The value `rand()*RAND_MAX+rand()` as `bigrand` holds it in its
  `unsigned long long rd` before the modulo. -/
  rd : Nat
  /-- The order in which `scandir` with `randsort` hands back the entries it
  was given (listed by increasing box number). -/
  scandirOrder : List Int → List Int
  /-- The status `system` returns for the init command of a box. -/
  systemInit : List Char → Int → Int

/-- The mutable state: both lock directories, the global list `locked`, and
what has been written to stderr and stdout and handed to `system`, oldest
first. -/
structure State where
  /-- The directory `lock/`: the content of `lock/<b>.pidlock`, if it exists. -/
  lockDir : Int → Option PidFile
  /-- The directory `free/`: the content of `free/<b>.pidlock`, if it exists. -/
  freeDir : Int → Option PidFile
  /-- The global `list<int> locked`. -/
  locked : List Int
  /-- The lines written to stderr. -/
  err : List Msg
  /-- The box numbers printed to stdout. -/
  out : List Int
  /-- The commands run through `system`. -/
  cmds : List Cmd

/-- The program wrote one line to stderr. -/
def State.logErr (st : State) (m : Msg) : State :=
  { st with err := st.err ++ [m] }

/-- The program ran one command through `system`. -/
def State.system (st : State) (c : Cmd) : State :=
  { st with cmds := st.cmds ++ [c] }

/-- How a call ends. -/
inductive Outcome (α : Type) where
  /-- The function returned `a`. -/
  | ret (a : α) (st : State)
  /-- The process ended through `exit(code)`. -/
  | exit (code : Int) (st : State)
  /-- Control reached the latch and watch phase of `getlocks` (the `flock`
  and `inotify` waits under the interval timer), which this embedding does
  not follow. -/
  | blocked (st : State)

/-- The state in which a call ended. -/
def Outcome.state {α : Type} : Outcome α → State
  | .ret _ st => st
  | .exit _ st => st
  | .blocked st => st

/-- Sequencing: the continuation runs only when the first call returned. -/
def andThen {α β : Type} (x : Option (Outcome α)) (f : α → State → Option (Outcome β)) :
    Option (Outcome β) :=
  match x with
  | none => none
  | some (.ret a st) => f a st
  | some (.exit code st) => some (.exit code st)
  | some (.blocked st) => some (.blocked st)

/-! ## Release -/

/-- The function `freelock(box_id, optstring)`: the return code and the state
it leaves. -/
def freelock (w : World) (box_id : Int) (optstring : Option (List Char)) (st : State) :
    Int × State :=
  -- FILE *file = fopen(fname,"r");
  match (if w.fopenLockRead box_id then st.lockDir box_id else none) with
  | none => (1, st.logErr (.couldNotAccess box_id))
  | some content =>
    -- int count = fscanf(file, "%d:%lld\n", &pid, &starttime);
    match content with
    | [] => (2, st.logErr (.invalidPidlock box_id))
    | e :: _ =>
      if e.pid ≠ w.ppid ∧ e.pid ≠ w.pid then
        (1, st.logErr (.notYours box_id))
      else
        -- lock freeing authorised
        let st1 := st.system (.cleanup optstring box_id)
        -- int stat = rename(fname, fname2);
        if w.renameLockToFree box_id then
          (0, { st1 with
                  lockDir := Function.update st1.lockDir box_id none
                  freeDir := Function.update st1.freeDir box_id (st1.lockDir box_id) })
        else
          (1, st1.logErr (.insufficientPrivileges box_id))

/-- The function `releaselocked()`.  The iterator `it` starts at
`locked.begin()` and moves only in `locked.erase(it++)`, so it always
designates the first element still in the list; one unit of fuel pays for
one pass through the loop body. -/
def releaselocked (w : World) : Nat → State → Option State
  | fuel, st =>
    match st.locked with
    | [] => some st
    | box_id :: rest =>
      match fuel with
      | 0 => none
      | fuel + 1 =>
        let r := freelock w box_id none st
        if r.1 = 0 then releaselocked w fuel { r.2 with locked := rest }
        else releaselocked w fuel r.2

/-- The function `panic(code)`: `releaselocked(); exit(code);`. -/
def panic {α : Type} (w : World) (fuel : Nat) (code : Int) (st : State) : Option (Outcome α) :=
  (releaselocked w fuel st).map (Outcome.exit code)

/-! ## Validation -/

/-- The function `valid(box_id)`. -/
def valid (w : World) (box_id : Int) : Bool :=
  decide (box_id ≥ 0) && decide (box_id < w.isolate_boxes)

/-- The function `validate(box_id)`. -/
def validate (w : World) (fuel : Nat) (box_id : Int) (st : State) : Option (Outcome Int) :=
  if !valid w box_id then
    panic w fuel 3 (st.logErr (.invalidBoxId box_id))
  else
    some (.ret box_id st)

/-- The test of the loop body of `validate_option` on one character: true
when the character is refused.  A `char` is compared through its code. -/
def badOptionChar (c : Char) : Bool :=
  c ≠ '-' && c ≠ '=' && (decide (c.toNat < 'a'.toNat) || decide (c.toNat > 'z'.toNat))
    && (decide (c.toNat < 'A'.toNat) || decide (c.toNat > 'Z'.toNat)) && c ≠ '/' && c ≠ ':'
    && (decide (c.toNat < '0'.toNat) || decide (c.toNat > '9'.toNat))

/-- The loop `for (int i=0;s[i]!=0;i++)` of `validate_option(s)`, at the
characters still to be visited; `s` is the whole option, for the message. -/
def validate_optionLoop (w : World) (fuel : Nat) (s : List Char) :
    List Char → State → Option (Outcome Unit)
  | [], st => some (.ret () st)
  | c :: cs, st =>
    if badOptionChar c then
      panic w fuel 7 (st.logErr (.invalidOption s))
    else
      validate_optionLoop w fuel s cs st

/-- The function `validate_option(s)`; `s` holds the characters before the
terminating NUL. -/
def validate_option (w : World) (fuel : Nat) (s : List Char) (st : State) :
    Option (Outcome Unit) :=
  if s = ['-', '-'] then
    panic w fuel 7 (st.logErr .invalidDashDash)
  else
    validate_optionLoop w fuel s s st

/-! ## Liveness -/

/-- The function `get_starttime(pid)`. -/
def get_starttime (w : World) (fuel : Nat) (pid : Int) (st : State) : Option (Outcome Nat) :=
  match w.procStat pid with
  | .missing => panic w fuel 11 st
  | .garbled => panic w fuel 12 st
  | .ok starttime => some (.ret starttime st)

/-- The function `valid_lock(pid, starttime)`. -/
def valid_lock (w : World) (fuel : Nat) (pid : Int) (starttime : Nat) (st : State) :
    Option (Outcome Bool) :=
  if !w.kill0 pid then some (.ret false st)
  else
    andThen (get_starttime w fuel pid st) fun t st1 =>
      if t ≠ starttime then some (.ret false st1) else some (.ret true st1)

/-! ## Acquisition of one box -/

/-- The first loop of `lock_box`,
`while (-1 != (narg = fscanf(...))) { if (valid = valid_lock(pid, starttime)) break; }`,
at the lines not yet read.  The result is the pair of `valid` and `pid` when
the loop is left; the second argument is `pid` as it stands before the next
`fscanf`. -/
def lock_boxScan (w : World) (fuel : Nat) : List Entry → Int → State →
    Option (Outcome (Bool × Int))
  | [], pid, st => some (.ret (false, pid) st)
  | e :: rest, _, st =>
    andThen (valid_lock w fuel e.pid e.starttime st) fun v st1 =>
      if v then some (.ret (true, e.pid) st1)
      else lock_boxScan w fuel rest e.pid st1

/-- The second loop of `lock_box`, after `rewind(file)`.  The result is true
when the loop is left through `valid=true; break;`, and false both when it
is left through `return false` (somebody beat us) and when `fscanf` reaches
the end of the file with `valid` still false, after which `lock_box` returns
false as well. -/
def lock_boxRescan (w : World) (fuel : Nat) : List Entry → State → Option (Outcome Bool)
  | [], st => some (.ret false st)
  | e :: rest, st =>
    andThen (valid_lock w fuel e.pid e.starttime st) fun v st1 =>
      if v then
        if e.pid = w.pid ∧ e.starttime = w.pid_starttime then some (.ret true st1)
        else some (.ret false st1)
      else lock_boxRescan w fuel rest st1

/-- The end of `lock_box`, from the comment "we have a good lock in the
queue": write the parent identity to `free/<b>.pidlock` and rename it over
`lock/<b>.pidlock`. -/
def lock_boxCommit (w : World) (box_id : Int) (st : State) : Option (Outcome Bool) :=
  -- FILE *pidfile = fopen(fname2,"w");
  if !w.fopenFreeWrite box_id then some (.ret false st)
  else
    -- fprintf(pidfile, "%d:%lld\n", ppid, ppid_starttime);
    let st1 : State :=
      { st with freeDir := Function.update st.freeDir box_id (some [⟨w.ppid, w.ppid_starttime⟩]) }
    -- int stat = rename(fname2, fname);
    if w.renameFreeToLock box_id then
      some (.ret true
        { st1 with
            lockDir := Function.update st1.lockDir box_id (st1.freeDir box_id)
            freeDir := Function.update st1.freeDir box_id none
            locked := st1.locked ++ [box_id] })
    else some (.ret false st1)

/-- The function `lock_box(box_id)`. -/
def lock_box (w : World) (fuel : Nat) (box_id : Int) (st : State) : Option (Outcome Bool) :=
  -- FILE *file = fopen(fname,"a+");
  if !w.fopenLockAppend box_id then
    panic w fuel 1 (st.logErr .couldNotOpen)
  else
    -- "a+" creates the file when it does not exist
    let content := (st.lockDir box_id).getD []
    let st0 : State := { st with lockDir := Function.update st.lockDir box_id (some content) }
    andThen (lock_boxScan w fuel content (-1) st0) fun r st1 =>
      if r.1 then
        if r.2 ≠ w.pid then some (.ret false st1)
        else lock_boxCommit w box_id st1
      else
        -- fprintf(file, "%d:%lld\n", getpid(), pid_starttime);
        let queue := content ++ [⟨w.pid, w.pid_starttime⟩]
        let st2 : State := { st1 with lockDir := Function.update st1.lockDir box_id (some queue) }
        andThen (lock_boxRescan w fuel queue st2) fun won st3 =>
          if !won then some (.ret false st3)
          else lock_boxCommit w box_id st3

/-! ## Acquisition of several boxes -/

/-- The loop body shared by `getfreelocks` and `scanlocks`,
`if (lock_box(box_id)) { if (locked.size() == numlocks) break; }`, over the
boxes still to be visited.  `numlocks` is never negative: `main` passes
`max(atoi(optarg),0)`. -/
def lockLoop (w : World) (fuel : Nat) (numlocks : Int) : List Int → State →
    Option (Outcome Unit)
  | [], st => some (.ret () st)
  | box_id :: rest, st =>
    andThen (lock_box w fuel box_id st) fun got st1 =>
      if got && decide ((st1.locked.length : Int) = numlocks) then some (.ret () st1)
      else lockLoop w fuel numlocks rest st1

/-- The entries of `free/` that pass `filter_pidlock`, by increasing box
number: the files `<b>.pidlock` with `valid(b)`. -/
def freeNames (w : World) (st : State) : List Int :=
  ((List.range w.isolate_boxes.toNat).map Int.ofNat).filter fun b => (st.freeDir b).isSome

/-- The function `getfreelocks(numlocks)`. -/
def getfreelocks (w : World) (fuel : Nat) (numlocks : Int) (st : State) :
    Option (Outcome Int) :=
  let initial_size : Int := st.locked.length
  if numlocks = initial_size then some (.ret 0 st)
  else
    andThen (lockLoop w fuel numlocks (w.scandirOrder (freeNames w st)) st) fun _ st1 =>
      some (.ret ((st1.locked.length : Int) - initial_size) st1)

/-- The function `bigrand()`; it is called with `isolate_boxes` positive,
where the modulo on `unsigned long long` and the one on integers agree. -/
def bigrand (w : World) : Int :=
  (w.rd : Int) % w.isolate_boxes

/-- The function `scanlocks(numlocks)`. -/
def scanlocks (w : World) (fuel : Nat) (numlocks : Int) (st : State) : Option (Outcome Int) :=
  let initial_size : Int := st.locked.length
  if numlocks = initial_size then some (.ret 0 st)
  else
    let offset := bigrand w
    let visits := (List.range w.isolate_boxes.toNat).map fun i =>
      (offset + (i : Int)) % w.isolate_boxes
    andThen (lockLoop w fuel numlocks visits st) fun _ st1 =>
      some (.ret ((st1.locked.length : Int) - initial_size) st1)

/-- The function `getlocks(numlocks, timeout)` up to the point where it would
wait: with `timeout < 0` it returns before the latch, otherwise the outcome
is `blocked`. -/
def getlocks (w : World) (fuel : Nat) (numlocks : Int) (timeout : Rat) (st : State) :
    Option (Outcome Int) :=
  andThen (getfreelocks w fuel numlocks st) fun _ st1 =>
  andThen (scanlocks w fuel numlocks st1) fun _ st2 =>
    -- not enough locks
    if (st2.locked.length : Int) < numlocks then
      match releaselocked w fuel st2 with
      | none => none
      | some st3 =>
        if timeout < 0 then some (.ret (st3.locked.length : Int) st3)
        else some (.blocked st3)
    else some (.ret (st2.locked.length : Int) st2)

/-! ## Driver -/

/-- The C library test `isspace` in the "C" locale. -/
def isspace (c : Char) : Bool :=
  c = ' ' || c = '\t' || c = '\n' || c = Char.ofNat 11 || c = Char.ofNat 12 || c = '\r'

/-- The decimal digits read by `strtol`, accumulated in `acc`. -/
def strtolDigits : List Char → Int → Int
  | [], acc => acc
  | c :: cs, acc =>
    if c.isDigit then strtolDigits cs (acc * 10 + ((c.toNat : Int) - ('0'.toNat : Int)))
    else acc

/-- The C library call `strtol(s, NULL, 10)` with a 64-bit `long`: leading
blanks, an optional sign, the digits; a value outside the range of `long` is
replaced by `LONG_MIN` or `LONG_MAX`. -/
def strtol (s : List Char) : Int :=
  let v : Int :=
    match s.dropWhile isspace with
    | '-' :: cs => - strtolDigits cs 0
    | '+' :: cs => strtolDigits cs 0
    | cs => strtolDigits cs 0
  max (-(2 ^ 63)) (min v (2 ^ 63 - 1))

/-- The C library function `atoi`, which is `(int) strtol(s, NULL, 10)`: the
conversion to the 32-bit `int` keeps the low 32 bits in two's complement. -/
def atoi (s : List Char) : Int :=
  (strtol s + 2 ^ 31) % 2 ^ 32 - 2 ^ 31

/-- The test `argv[id_end][0] != '-'` that keeps an argument among the box
numbers. -/
def isBoxArg (a : List Char) : Bool :=
  a.head? ≠ some '-'

/-- The loop over `argv[id_end..argc)`: `validate_option(argv[i])`, then the
argument is appended to `optstring` after a blank. -/
def optionsLoop (w : World) (fuel : Nat) : List (List Char) → List Char → State →
    Option (Outcome (List Char))
  | [], optstring, st => some (.ret optstring st)
  | a :: rest, optstring, st =>
    andThen (validate_option w fuel a st) fun _ st1 =>
      optionsLoop w fuel rest (optstring ++ ' ' :: a) st1

/-- The loop `box_id = atoi(argv[i]); validate(box_id);`. -/
def validateLoop (w : World) (fuel : Nat) : List (List Char) → State → Option (Outcome Unit)
  | [], st => some (.ret () st)
  | a :: rest, st =>
    andThen (validate w fuel (atoi a) st) fun _ st1 => validateLoop w fuel rest st1

/-- The loop of lock mode over the listed boxes: `lock_box`, and a line on
stderr when it returns false. -/
def lockArgsLoop (w : World) (fuel : Nat) : List (List Char) → State → Option (Outcome Unit)
  | [], st => some (.ret () st)
  | a :: rest, st =>
    andThen (lock_box w fuel (atoi a) st) fun got st1 =>
      lockArgsLoop w fuel rest (if !got then st1.logErr (.unavailable (atoi a)) else st1)

/-- The loop that runs the init command of every printed box; `main` returns
256 at the first non-zero status and 0 after the last box. -/
def initLoop (w : World) (optstring : List Char) : List Int → State → Outcome Int
  | [], st => .ret 0 st
  | box_id :: rest, st =>
    let st1 := st.system (.init optstring box_id)
    if w.systemInit optstring box_id ≠ 0 then
      .ret 256 (st1.logErr (.initFailed optstring box_id))
    else initLoop w optstring rest st1

/-- The loop of free mode over the listed boxes; the result is `fails`. -/
def freeArgsLoop (w : World) (optstring : List Char) : List (List Char) → Nat → State →
    Nat × State
  | [], fails, st => (fails, st)
  | a :: rest, fails, st =>
    let r := freelock w (atoi a) (some optstring) st
    if r.1 = 0 then freeArgsLoop w optstring rest fails { r.2 with out := r.2.out ++ [atoi a] }
    else freeArgsLoop w optstring rest (fails + 1) r.2

/-- The function `main` once `init()` has succeeded and `getopt_long` has
consumed the options: `mode`, `n`, `t` and `isolate_init` are the variables
it set, `args` is `argv[optind..argc)`.  `ret c` means that `main` returned
`c`. -/
def main (w : World) (fuel : Nat) (mode : Char) (n : Int) (t : Rat) (isolate_init : Bool)
    (args : List (List Char)) (st : State) : Option (Outcome Int) :=
  if mode = 'h' then some (.ret 0 (st.logErr .usage))
  else if mode = 'l' then
    let ids := args.takeWhile isBoxArg
    let opts := args.dropWhile isBoxArg
    andThen (optionsLoop w fuel opts [] st) fun optstring st1 =>
      -- false when `main` leaves through `return 1; // no box locked`
      let acquired : Option (Outcome Bool) :=
        if ids ≠ [] then
          andThen (validateLoop w fuel ids st1) fun _ st2 =>
            andThen (lockArgsLoop w fuel ids st2) fun _ st3 => some (.ret true st3)
        else
          andThen (getlocks w fuel n t st1) fun got st2 =>
            if got = 0 then some (.ret false (st2.logErr .insufficientBoxes))
            else if (st2.locked.length : Int) < n then
              some (.ret true (st2.logErr (.couldNotAcquire n st2.locked.length)))
            else some (.ret true st2)
      andThen acquired fun go st3 =>
        if !go then some (.ret 1 st3)
        else
          -- success
          let out := st3.locked
          let st4 : State := { st3 with out := st3.out ++ out, locked := [] }
          if isolate_init then some (initLoop w optstring out st4)
          else some (.ret 0 st4)
  else if mode = 'f' then
    let ids := args.takeWhile isBoxArg
    let opts := args.dropWhile isBoxArg
    andThen (optionsLoop w fuel opts [] st) fun optstring st1 =>
      if ids = [] then some (.ret 4 (st1.logErr .noBoxId))
      else
        andThen (validateLoop w fuel ids st1) fun _ st2 =>
          let r := freeArgsLoop w optstring ids 0 st2
          some (.ret (if r.1 > 0 then 1 else 0) r.2)
  else some (.ret 2 (st.logErr .unknownMode))

/-- The value that `main` returned or that `exit` was given; the parent of the
broker sees its low eight bits as exit status. -/
def exitCode : Outcome Int → Option Int
  | .ret code _ => some code
  | .exit code _ => some code
  | .blocked _ => none

/-! ## Several brokers contending for one box

Each broker is a process inside `lock_box(box)`; it advances by one file
operation at a time, and a schedule says which broker moves next.  A
directory entry names an inode, and a stream opened on an inode keeps
reading and appending to it after the entry has been renamed away. -/

/-- The point a broker has reached inside `lock_box`. -/
inductive Pc where
  /-- Before `fopen(fname,"a+")`. -/
  | start
  /-- The stream is open; the first loop has not run. -/
  | opened
  /-- The first loop found no valid line; our line is not yet written. -/
  | queued
  /-- After `fprintf` and `fflush`, before `rewind` and the second loop. -/
  | appended
  /-- At "we have a good lock in the queue", before `fopen(fname2,"w")`. -/
  | won
  /-- The file `free/<b>.pidlock` is written, before `rename`. -/
  | written
  /-- The call `lock_box` has returned. -/
  | returned
  /-- The process has ended. -/
  | exited
deriving DecidableEq, Repr

/-- One broker process. -/
structure Broker where
  pid : Int
  pid_starttime : Nat
  ppid : Int
  ppid_starttime : Nat
  pc : Pc
  /-- The inode on which the stream `file` is open. -/
  file : Nat
  /-- What `lock_box` returned, once it has. -/
  result : Option Bool
  /-- The broker's list `locked`. -/
  locked : List Int
deriving DecidableEq, Repr

/-- The shared system: the files of one box and the processes. -/
structure Sys where
  /-- The box all brokers ask for. -/
  box : Int
  /-- The content of every inode, by inode number. -/
  inodes : List PidFile
  /-- The inode that `lock/<box>.pidlock` names, if the entry exists. -/
  lockEntry : Option Nat
  /-- The inode that `free/<box>.pidlock` names, if the entry exists. -/
  freeEntry : Option Nat
  /-- The brokers. -/
  brokers : List Broker
  /-- The other running processes (the parents), with their start times. -/
  parents : List (Int × Nat)
deriving DecidableEq, Repr

/-- The start time of the running process `p`, if there is one: a parent, or
a broker that has not ended. -/
def Sys.running (s : Sys) (p : Int) : Option Nat :=
  match s.parents.find? fun q => q.1 = p with
  | some q => some q.2
  | none =>
    match s.brokers.find? fun b => b.pid = p ∧ b.pc ≠ .exited with
    | some b => some b.pid_starttime
    | none => none

/-- The environment a broker sees in the system. -/
def Sys.world (s : Sys) (br : Broker) : World where
  isolate_boxes := s.box + 1
  pid := br.pid
  ppid := br.ppid
  pid_starttime := br.pid_starttime
  ppid_starttime := br.ppid_starttime
  kill0 := fun p => (s.running p).isSome
  procStat := fun p =>
    match s.running p with
    | some t => .ok t
    | none => .missing
  fopenLockAppend := fun _ => true
  fopenLockRead := fun _ => true
  fopenFreeWrite := fun _ => true
  renameFreeToLock := fun _ => true
  renameLockToFree := fun _ => true
  rd := 0
  scandirOrder := id
  systemInit := fun _ _ => 0

/-- The content of an inode. -/
def Sys.read (s : Sys) (ino : Nat) : PidFile :=
  (s.inodes.get? ino).getD []

/-- The directories and the list `locked` as a broker sees them through the
paths. -/
def Sys.view (s : Sys) (br : Broker) : State where
  lockDir := fun b => if b = s.box then s.lockEntry.map s.read else none
  freeDir := fun b => if b = s.box then s.freeEntry.map s.read else none
  locked := br.locked
  err := []
  out := []
  cmds := []

/-- The system after broker `i` has become `br`. -/
def Sys.setBroker (s : Sys) (i : Nat) (br : Broker) : Sys :=
  { s with brokers := s.brokers.set i br }

/-- One file operation of broker `i`. -/
def Sys.step (fuel : Nat) (s : Sys) (i : Nat) : Sys :=
  match s.brokers.get? i with
  | none => s
  | some br =>
    match br.pc with
    | .start =>
      -- FILE *file = fopen(fname,"a+");
      match s.lockEntry with
      | some ino => s.setBroker i { br with pc := .opened, file := ino }
      | none =>
        { s with inodes := s.inodes ++ [[]], lockEntry := some s.inodes.length }.setBroker i
          { br with pc := .opened, file := s.inodes.length }
    | .opened =>
      -- the first loop
      match lock_boxScan (s.world br) fuel (s.read br.file) (-1) (s.view br) with
      | some (.ret r _) =>
        if r.1 then
          if r.2 ≠ br.pid then s.setBroker i { br with pc := .returned, result := some false }
          else s.setBroker i { br with pc := .won }
        else s.setBroker i { br with pc := .queued }
      | _ => s.setBroker i { br with pc := .exited }
    | .queued =>
      -- fprintf(file, "%d:%lld\n", getpid(), pid_starttime); fflush(file);
      { s with inodes := s.inodes.set br.file (s.read br.file ++ [Entry.mk br.pid br.pid_starttime]) }.setBroker
        i { br with pc := .appended }
    | .appended =>
      -- rewind(file); the second loop
      match lock_boxRescan (s.world br) fuel (s.read br.file) (s.view br) with
      | some (.ret true _) => s.setBroker i { br with pc := .won }
      | some (.ret false _) => s.setBroker i { br with pc := .returned, result := some false }
      | _ => s.setBroker i { br with pc := .exited }
    | .won =>
      -- pidfile = fopen(fname2,"w"); fprintf(pidfile, ...); fclose(pidfile);
      match s.freeEntry with
      | some ino =>
        { s with inodes := s.inodes.set ino [Entry.mk br.ppid br.ppid_starttime] }.setBroker i
          { br with pc := .written }
      | none =>
        { s with inodes := s.inodes ++ [[Entry.mk br.ppid br.ppid_starttime]]
                 freeEntry := some s.inodes.length }.setBroker i { br with pc := .written }
    | .written =>
      -- int stat = rename(fname2, fname);
      match s.freeEntry with
      | some ino =>
        { s with lockEntry := some ino, freeEntry := none }.setBroker i
          { br with pc := .returned, result := some true, locked := br.locked ++ [s.box] }
      | none => s.setBroker i { br with pc := .returned, result := some false }
    | .returned => s.setBroker i { br with pc := .exited }
    | .exited => s

/-- The system after the brokers have moved in the order of the schedule. -/
def Sys.run (fuel : Nat) (s : Sys) (schedule : List Nat) : Sys :=
  schedule.foldl (Sys.step fuel) s

/-- The first line of `lock/<box>.pidlock` whose process is running with the
recorded start time. -/
def Sys.holder (s : Sys) : Option Entry :=
  (s.lockEntry.map s.read).bind fun c => c.find? fun e => s.running e.pid = some e.starttime

/-! ## Predicates used in the statements -/

/-- The character class of the pass-through options as the specification
words it: an ASCII letter, an ASCII digit, or one of `-`, `=`, `/`, `:`. -/
def allowedChar (c : Char) : Bool :=
  c.isAlpha || c.isDigit || c = '-' || c = '=' || c = '/' || c = ':'

/-- The options the specification lets through: not exactly "--", and every
character in the class. -/
def acceptedOption (s : List Char) : Bool :=
  decide (s ≠ ['-', '-']) && s.all allowedChar

/-- An identity is live: the null signal reaches the process and its start
time in `/proc` is the recorded one. -/
def isLive (w : World) (e : Entry) : Bool :=
  w.kill0 e.pid && decide (w.procStat e.pid = .ok e.starttime)

/-- Every process the null signal reaches has a readable `/proc/<pid>/stat`. -/
def StatReadable (w : World) : Prop :=
  ∀ p, w.kill0 p = true → ∃ t, w.procStat p = .ok t

/-- The state after the broker has taken box `box_id`: `lock/<b>.pidlock`
holds the single line of the parent, `free/<b>.pidlock` is gone, and the box
is the last element of `locked`. -/
def State.taken (w : World) (box_id : Int) (st : State) : State :=
  { st with
      lockDir := Function.update st.lockDir box_id (some [⟨w.ppid, w.ppid_starttime⟩])
      freeDir := Function.update st.freeDir box_id none
      locked := st.locked ++ [box_id] }

/-- Box `box_id` is held by somebody else: the first live line of its file in
`lock/` carries a pid other than the broker's own. -/
def HeldByOther (w : World) (st : State) (box_id : Int) : Prop :=
  ∃ (pre : PidFile) (e : Entry) (post : PidFile),
    st.lockDir box_id = some (pre ++ e :: post) ∧ (∀ x ∈ pre, isLive w x = false) ∧
      isLive w e = true ∧ e.pid ≠ w.pid

/-- The value a call returned, if it returned. -/
def Outcome.value {α : Type} : Outcome α → Option α
  | .ret a _ => some a
  | .exit _ _ => none
  | .blocked _ => none

/-- The code given to `exit`, if the call ended the process. -/
def Outcome.exited {α : Type} : Outcome α → Option Int
  | .ret _ _ => none
  | .exit code _ => some code
  | .blocked _ => none

/-! ## Concrete inputs -/

/-- A host with four boxes: the broker is process 100 started at tick 1000,
its parent is process 99 started at tick 900, process 77 started at tick 5 is
also running, and every file operation is permitted. -/
def hostWorld : World where
  isolate_boxes := 4
  pid := 100
  ppid := 99
  pid_starttime := 1000
  ppid_starttime := 900
  kill0 := fun p => p = 100 || p = 99 || p = 77
  procStat := fun p =>
    if p = 100 then .ok 1000 else if p = 99 then .ok 900 else if p = 77 then .ok 5
    else .missing
  fopenLockAppend := fun _ => true
  fopenLockRead := fun _ => true
  fopenFreeWrite := fun _ => true
  renameFreeToLock := fun _ => true
  renameLockToFree := fun _ => true
  rd := 7
  scandirOrder := List.reverse
  systemInit := fun _ _ => 0

/-- The host of the examples, where in addition `kill(0, 0)` returns 0 (the
null signal to pid 0 goes to the broker's own process group) while there is
no `/proc/0/stat`. -/
def groupSignalWorld : World :=
  { hostWorld with kill0 := fun p => p = 0 || hostWorld.kill0 p }

/-- A state with the given files of box 0 only, and the given list `locked`. -/
def boxZeroState (lock0 free0 : Option PidFile) (locked : List Int) : State where
  lockDir := fun b => if b = 0 then lock0 else none
  freeDir := fun b => if b = 0 then free0 else none
  locked := locked
  err := []
  out := []
  cmds := []

/-- Two brokers about to run `lock_box(0)` on a host where the pidlock file of
box 0 does not exist yet: broker 0 is process 101 with parent 11, broker 1 is
process 102 with parent 12, and both parents are running. -/
def raceSys : Sys where
  box := 0
  inodes := []
  lockEntry := none
  freeEntry := none
  brokers :=
    [ { pid := 101, pid_starttime := 5001, ppid := 11, ppid_starttime := 4001,
        pc := .start, file := 0, result := none, locked := [] },
      { pid := 102, pid_starttime := 5002, ppid := 12, ppid_starttime := 4002,
        pc := .start, file := 0, result := none, locked := [] } ]
  parents := [(11, 4001), (12, 4002)]

/-- Broker 1 opens `lock/0.pidlock`; broker 0 then runs all of `lock_box(0)`
(open, scan, append, re-scan, write `free/0.pidlock`, rename) and ends. -/
def raceFirstHalf : List Nat := [1, 0, 0, 0, 0, 0, 0, 0]

/-- Broker 1 goes on with the stream it opened: scan, append, re-scan, write
`free/0.pidlock`, rename. -/
def raceSecondHalf : List Nat := [1, 1, 1, 1, 1]

/-- Broker 0 runs all of `lock_box(0)` and ends; only then does broker 1
start and run all of `lock_box(0)`. -/
def sequentialSchedule : List Nat := [0, 0, 0, 0, 0, 0, 0, 1, 1, 1, 1, 1, 1]

/-- One broker alone (process 100 started at tick 1000, parent 99 started at
tick 900) about to run `lock_box(0)`; process 77 started at tick 5 is also
running. -/
def soloSys (inodes : List PidFile) (lockEntry freeEntry : Option Nat) : Sys where
  box := 0
  inodes := inodes
  lockEntry := lockEntry
  freeEntry := freeEntry
  brokers :=
    [ { pid := 100, pid_starttime := 1000, ppid := 99, ppid_starttime := 900,
        pc := .start, file := 0, result := none, locked := [] } ]
  parents := [(99, 900), (77, 5)]

/-- For a system with one broker: letting the broker take six steps gives the
result, the list `locked` and the two files of the box that the function
`lock_box` gives on the same files. -/
def soloAgrees (s : Sys) : Bool :=
  match s.brokers with
  | [br] =>
    match lock_box (s.world br) 0 s.box (s.view br), (s.run 0 [0, 0, 0, 0, 0, 0]).brokers with
    | some (.ret r st'), [br'] =>
      decide (br'.result = some r) && decide (br'.locked = st'.locked)
        && decide (((s.run 0 [0, 0, 0, 0, 0, 0]).view br').lockDir s.box = st'.lockDir s.box)
        && decide (((s.run 0 [0, 0, 0, 0, 0, 0]).view br').freeDir s.box = st'.freeDir s.box)
    | _, _ => false
  | _ => false

end Isolock

/-! # Theorems -/

namespace Isolock

/-! ## Shared lemmas -/

theorem char_eq_iff_toNat (c d : Char) : c = d ↔ c.toNat = d.toNat := by
  constructor
  · intro h; rw [h]
  · intro h
    apply Char.ext
    apply UInt32.ext
    exact h

/-- The test of the source is the complement of the class of the
specification. -/
theorem badOptionChar_eq (c : Char) : badOptionChar c = !allowedChar c := by
  have hv : c.val.toBitVec.toNat = c.toNat := rfl
  simp only [badOptionChar, allowedChar, Char.isAlpha, Char.isUpper, Char.isLower, Char.isDigit]
  simp only [ne_eq, char_eq_iff_toNat, UInt32.le_def, ge_iff_le, BitVec.le_def, hv]
  have e1 : (UInt32.toBitVec 65).toNat = 65 := rfl
  have e2 : (UInt32.toBitVec 90).toNat = 90 := rfl
  have e3 : (UInt32.toBitVec 97).toNat = 97 := rfl
  have e4 : (UInt32.toBitVec 122).toNat = 122 := rfl
  have e5 : (UInt32.toBitVec 48).toNat = 48 := rfl
  have e6 : (UInt32.toBitVec 57).toNat = 57 := rfl
  have f1 : '-'.toNat = 45 := rfl
  have f2 : '='.toNat = 61 := rfl
  have f3 : 'a'.toNat = 97 := rfl
  have f4 : 'z'.toNat = 122 := rfl
  have f5 : 'A'.toNat = 65 := rfl
  have f6 : 'Z'.toNat = 90 := rfl
  have f7 : '/'.toNat = 47 := rfl
  have f8 : ':'.toNat = 58 := rfl
  have f9 : '0'.toNat = 48 := rfl
  have f10 : '9'.toNat = 57 := rfl
  simp only [e1, e2, e3, e4, e5, e6, f1, f2, f3, f4, f5, f6, f7, f8, f9, f10]
  generalize c.toNat = n
  rw [Bool.eq_iff_iff]
  simp only [Bool.and_eq_true, Bool.or_eq_true, decide_eq_true_eq, Bool.not_eq_true',
    Bool.or_eq_false_iff, Bool.and_eq_false_iff, decide_eq_false_iff_not]
  omega

/-- With nothing held, `releaselocked` returns at once. -/
theorem releaselocked_nil (w : World) (fuel : Nat) (st : State) (h : st.locked = []) :
    releaselocked w fuel st = some st := by
  unfold releaselocked
  rw [h]

/-- With nothing held, `panic(code)` is `exit(code)`. -/
theorem panic_nil {α : Type} (w : World) (fuel : Nat) (code : Int) (st : State)
    (h : st.locked = []) :
    (panic w fuel code st : Option (Outcome α)) = some (.exit code st) := by
  unfold panic
  rw [releaselocked_nil w fuel st h]
  rfl

/-- A call of `panic` never returns to its caller. -/
theorem panic_ne_ret {α : Type} (w : World) (fuel : Nat) (code : Int) (st : State) (a : α)
    (st' : State) : (panic w fuel code st : Option (Outcome α)) ≠ some (.ret a st') := by
  unfold panic
  cases releaselocked w fuel st <;> simp

/-- The loop of `validate_option` returns when no character is refused. -/
theorem validate_optionLoop_ok (w : World) (fuel : Nat) (s : List Char) (st : State) :
    ∀ cs : List Char, cs.all allowedChar = true →
      validate_optionLoop w fuel s cs st = some (.ret () st) := by
  intro cs
  induction cs with
  | nil => intro _; rfl
  | cons c cs ih =>
    intro h
    simp only [List.all_cons, Bool.and_eq_true] at h
    simp only [validate_optionLoop, badOptionChar_eq, h.1, Bool.not_true]
    exact ih h.2

/-- The loop of `validate_option` reaches `panic(7)` when a character is
refused. -/
theorem validate_optionLoop_bad (w : World) (fuel : Nat) (s : List Char) (st : State) :
    ∀ cs : List Char, cs.all allowedChar = false →
      validate_optionLoop w fuel s cs st = panic w fuel 7 (st.logErr (.invalidOption s)) := by
  intro cs
  induction cs with
  | nil => intro h; simp at h
  | cons c cs ih =>
    intro h
    by_cases hc : allowedChar c = true
    · simp only [List.all_cons, hc, Bool.true_and] at h
      simp only [validate_optionLoop, badOptionChar_eq, hc, Bool.not_true]
      exact ih h
    · simp only [Bool.not_eq_true] at hc
      simp [validate_optionLoop, badOptionChar_eq, hc]

/-! ## Release -/

/-- While the lock file of the first held box is missing, `freelock` fails on
it and changes neither the directories nor `locked`, so the loop of
`releaselocked` comes back to the same box for ever. -/
theorem releaselocked_stuck (w : World) (box_id : Int) (rest : List Int) :
    ∀ (fuel : Nat) (st : State), st.locked = box_id :: rest → st.lockDir box_id = none →
      releaselocked w fuel st = none := by
  intro fuel
  induction fuel with
  | zero =>
    intro st hl _
    unfold releaselocked
    rw [hl]
  | succ n ih =>
    intro st hl hf
    have hfree : freelock w box_id none st = (1, st.logErr (.couldNotAccess box_id)) := by
      unfold freelock
      rw [hf]
      simp
    unfold releaselocked
    rw [hl]
    simp only [hfree, one_ne_zero, if_false]
    exact ih _ hl hf

/-- C4: when `lock/<b>.pidlock` can be read and starts with the line
`(pid, token)` and the rename succeeds, `freelock` returns 0 exactly when
`pid` is the parent's pid or the broker's own pid, whatever the token; then the
cleanup command has been run and the file has moved to `free/<b>.pidlock`.
When `pid` is neither, `freelock` returns 1, runs no command and leaves both
directories and `locked` as they were. -/
theorem freelock_ownership (w : World) (box_id : Int) (optstring : Option (List Char))
    (st : State) (e : Entry) (rest : PidFile)
    (hfile : st.lockDir box_id = some (e :: rest))
    (hread : w.fopenLockRead box_id = true)
    (hrename : w.renameLockToFree box_id = true) :
    ((freelock w box_id optstring st).1 = 0 ↔ (e.pid = w.ppid ∨ e.pid = w.pid)) ∧
    ((e.pid = w.ppid ∨ e.pid = w.pid) →
      (freelock w box_id optstring st).1 = 0 ∧
      (freelock w box_id optstring st).2.lockDir box_id = none ∧
      (freelock w box_id optstring st).2.freeDir box_id = some (e :: rest) ∧
      (freelock w box_id optstring st).2.cmds = st.cmds ++ [.cleanup optstring box_id] ∧
      (∀ b, b ≠ box_id →
        (freelock w box_id optstring st).2.lockDir b = st.lockDir b ∧
        (freelock w box_id optstring st).2.freeDir b = st.freeDir b)) ∧
    (¬ (e.pid = w.ppid ∨ e.pid = w.pid) →
      (freelock w box_id optstring st).1 = 1 ∧
      (freelock w box_id optstring st).2 = st.logErr (.notYours box_id) ∧
      (freelock w box_id optstring st).2.cmds = st.cmds ∧
      (freelock w box_id optstring st).2.lockDir = st.lockDir ∧
      (freelock w box_id optstring st).2.freeDir = st.freeDir ∧
      (freelock w box_id optstring st).2.locked = st.locked) := by
  by_cases hown : e.pid = w.ppid ∨ e.pid = w.pid
  · have hcond : ¬ (e.pid ≠ w.ppid ∧ e.pid ≠ w.pid) := by tauto
    have hval : freelock w box_id optstring st =
        (0, { st.system (.cleanup optstring box_id) with
                lockDir := Function.update st.lockDir box_id none
                freeDir := Function.update st.freeDir box_id (st.lockDir box_id) }) := by
      simp only [freelock, hread, if_true, hfile, hcond, if_false, hrename, State.system]
    rw [hval]
    refine ⟨by simp [hown], fun _ => ⟨rfl, by simp, by simp [hfile], rfl, ?_⟩, fun h => absurd hown h⟩
    intro b hb
    simp [Function.update_noteq hb]
  · have hcond : e.pid ≠ w.ppid ∧ e.pid ≠ w.pid := by tauto
    have hval : freelock w box_id optstring st = (1, st.logErr (.notYours box_id)) := by
      simp only [freelock, hread, if_true, hfile]
      rw [if_pos hcond]
    rw [hval]
    exact ⟨by simp [hown], fun h => absurd h hown, fun _ => ⟨rfl, rfl, rfl, rfl, rfl, rfl⟩⟩

/-- Box 0 with the parent's pid 99 in its first line, under another token. -/
theorem freelock_ownership_witness :
    (freelock hostWorld 0 none (boxZeroState (some [⟨99, 1⟩]) none [0])).1 = 0 ↔
      ((99 : Int) = hostWorld.ppid ∨ (99 : Int) = hostWorld.pid) :=
  (freelock_ownership hostWorld 0 none (boxZeroState (some [⟨99, 1⟩]) none [0]) ⟨99, 1⟩ []
    rfl rfl rfl).1

/-- C6 as amended: when `lock/<b>.pidlock` starts with a line whose pid is the
parent's and the file operations succeed, the first `freelock` returns 0 and
moves the file to `free/<b>.pidlock`; the second `freelock` returns 1 because
`fopen` finds no `lock/<b>.pidlock`: it writes "Could not access lock file"
and nothing else changes, the ownership test is not reached. -/
theorem freelock_twice (w : World) (box_id : Int) (optstring : Option (List Char))
    (st : State) (e : Entry) (rest : PidFile)
    (hfile : st.lockDir box_id = some (e :: rest))
    (hpid : e.pid = w.ppid)
    (hread : w.fopenLockRead box_id = true)
    (hrename : w.renameLockToFree box_id = true) :
    (freelock w box_id optstring st).1 = 0 ∧
    (freelock w box_id optstring st).2.lockDir box_id = none ∧
    (freelock w box_id optstring st).2.freeDir box_id = some (e :: rest) ∧
    (freelock w box_id optstring (freelock w box_id optstring st).2).1 = 1 ∧
    (freelock w box_id optstring (freelock w box_id optstring st).2).2 =
      (freelock w box_id optstring st).2.logErr (.couldNotAccess box_id) := by
  have hcond : ¬ (e.pid ≠ w.ppid ∧ e.pid ≠ w.pid) := by
    intro h
    exact h.1 hpid
  have hval : freelock w box_id optstring st =
      (0, { st.system (.cleanup optstring box_id) with
              lockDir := Function.update st.lockDir box_id none
              freeDir := Function.update st.freeDir box_id (st.lockDir box_id) }) := by
    simp only [freelock, hread, if_true, hfile, hcond, if_false, hrename, State.system]
  rw [hval]
  refine ⟨rfl, by simp, by simp [hfile], ?_, ?_⟩ <;>
    simp [freelock, hread]

/-- Box 0 held for the parent 99, released twice on the host of the examples. -/
theorem freelock_twice_witness :
    (freelock hostWorld 0 none
      (freelock hostWorld 0 none (boxZeroState (some [⟨99, 900⟩]) none [0])).2).2 =
      (freelock hostWorld 0 none (boxZeroState (some [⟨99, 900⟩]) none [0])).2.logErr
        (.couldNotAccess 0) :=
  (freelock_twice hostWorld 0 none (boxZeroState (some [⟨99, 900⟩]) none [0]) ⟨99, 900⟩ []
    rfl rfl rfl rfl).2.2.2.2

/-- C6 as stated fails: box 0 is held for the parent (process 99); the first
`freelock(0)` returns 0, and the second writes "Could not access lock file
for box_id=0." to stderr, not the "does not belong to you" line of the
ownership test. -/
theorem freelock_twice_second_is_missing_file :
    (freelock hostWorld 0 none (boxZeroState (some [⟨99, 900⟩]) none [0])).1 = 0 ∧
    (freelock hostWorld 0 none
      (freelock hostWorld 0 none (boxZeroState (some [⟨99, 900⟩]) none [0])).2).2.err =
        [Msg.couldNotAccess 0] ∧
    Msg.notYours 0 ∉ (freelock hostWorld 0 none
      (freelock hostWorld 0 none (boxZeroState (some [⟨99, 900⟩]) none [0])).2).2.err := by
  decide

/-- C7 at a failing input: box 3 is in `locked` and `lock/3.pidlock` does not
exist, so `freelock(3)` fails; `releaselocked` then never finishes, whatever
the fuel. -/
theorem releaselocked_never_returns :
    ∀ fuel : Nat, releaselocked hostWorld fuel (boxZeroState none none [3]) = none :=
  fun fuel => releaselocked_stuck hostWorld 3 [] fuel _ rfl rfl

/-! ## Acquisition of one box -/

/-- With `/proc` readable, `valid_lock` returns whether the identity is live
and leaves the state alone. -/
theorem valid_lock_eq (w : World) (fuel : Nat) (hstat : StatReadable w) (pid : Int)
    (starttime : Nat) (st : State) :
    valid_lock w fuel pid starttime st = some (.ret (isLive w ⟨pid, starttime⟩) st) := by
  unfold valid_lock isLive
  cases hk : w.kill0 pid with
  | false => simp
  | true =>
    obtain ⟨t, ht⟩ := hstat pid hk
    simp only [Bool.not_true, Bool.false_eq_true, if_false, get_starttime, ht, andThen,
      Bool.true_and]
    by_cases h : t = starttime
    · simp [h]
    · simp [h]

/-- The first loop of `lock_box` stops at the first live line. -/
theorem lock_boxScan_live (w : World) (fuel : Nat) (hstat : StatReadable w) (st : State)
    (e : Entry) (post : PidFile) (he : isLive w e = true) :
    ∀ (pre : PidFile) (pid : Int), (∀ x ∈ pre, isLive w x = false) →
      lock_boxScan w fuel (pre ++ e :: post) pid st = some (.ret (true, e.pid) st) := by
  intro pre
  induction pre with
  | nil =>
    intro pid _
    simp [lock_boxScan, valid_lock_eq w fuel hstat, andThen, he]
  | cons x pre ih =>
    intro pid hpre
    have hx : isLive w x = false := hpre x (List.mem_cons_self _ _)
    simp only [List.cons_append, lock_boxScan, valid_lock_eq w fuel hstat, andThen, hx]
    exact ih x.pid fun y hy => hpre y (List.mem_cons_of_mem _ hy)

/-- The first loop of `lock_box` runs to the end of a file without a live
line and leaves `valid` false. -/
theorem lock_boxScan_dead (w : World) (fuel : Nat) (hstat : StatReadable w) (st : State) :
    ∀ (c : PidFile) (pid : Int), (∀ x ∈ c, isLive w x = false) →
      ∃ p, lock_boxScan w fuel c pid st = some (.ret (false, p) st) := by
  intro c
  induction c with
  | nil => intro pid _; exact ⟨pid, rfl⟩
  | cons x c ih =>
    intro pid hc
    have hx : isLive w x = false := hc x (List.mem_cons_self _ _)
    simp only [lock_boxScan, valid_lock_eq w fuel hstat, andThen, hx]
    exact ih x.pid fun y hy => hc y (List.mem_cons_of_mem _ hy)

/-- The second loop of `lock_box` finds our own line first when the lines
before it are not live. -/
theorem lock_boxRescan_won (w : World) (fuel : Nat) (hstat : StatReadable w) (st : State)
    (post : PidFile) (hself : isLive w ⟨w.pid, w.pid_starttime⟩ = true) :
    ∀ pre : PidFile, (∀ x ∈ pre, isLive w x = false) →
      lock_boxRescan w fuel (pre ++ ⟨w.pid, w.pid_starttime⟩ :: post) st =
        some (.ret true st) := by
  intro pre
  induction pre with
  | nil =>
    intro _
    simp [lock_boxRescan, valid_lock_eq w fuel hstat, andThen, hself]
  | cons x pre ih =>
    intro hpre
    have hx : isLive w x = false := hpre x (List.mem_cons_self _ _)
    simp only [List.cons_append, lock_boxRescan, valid_lock_eq w fuel hstat, andThen, hx]
    exact ih fun y hy => hpre y (List.mem_cons_of_mem _ hy)

/-- Opening an existing file with "a+" leaves the directory as it is. -/
theorem open_existing (st : State) (box_id : Int) (c : PidFile)
    (h : st.lockDir box_id = some c) :
    ({ st with lockDir := Function.update st.lockDir box_id (some c) } : State) = st := by
  have : Function.update st.lockDir box_id (some c) = st.lockDir := by
    rw [← h]
    exact Function.update_eq_self box_id st.lockDir
  rw [this]

/-- A box held by somebody else is refused in the state of the call. -/
theorem lock_box_held (w : World) (fuel : Nat) (box_id : Int) (st : State)
    (hstat : StatReadable w) (hopen : w.fopenLockAppend box_id = true)
    (hheld : HeldByOther w st box_id) :
    lock_box w fuel box_id st = some (.ret false st) := by
  obtain ⟨pre, e, post, hfile, hpre, he, hpid⟩ := hheld
  unfold lock_box
  simp only [hopen, Bool.not_true, Bool.false_eq_true, if_false, hfile, Option.getD_some]
  rw [open_existing st box_id _ hfile, lock_boxScan_live w fuel hstat st e post he pre (-1) hpre]
  simp [andThen, hpid]

/-- When the start time of `pid` can be read if the null signal reaches it,
`valid_lock` returns whether the identity is live and leaves the state alone. -/
theorem valid_lock_readable (w : World) (fuel : Nat) (pid : Int) (starttime : Nat) (st : State)
    (hread : w.kill0 pid = true → ∃ t, w.procStat pid = .ok t) :
    valid_lock w fuel pid starttime st = some (.ret (isLive w ⟨pid, starttime⟩) st) := by
  unfold valid_lock isLive
  cases hk : w.kill0 pid with
  | false => simp
  | true =>
    obtain ⟨t, ht⟩ := hread hk
    simp only [Bool.not_true, Bool.false_eq_true, if_false, get_starttime, ht, andThen,
      Bool.true_and]
    by_cases h : t = starttime
    · simp [h]
    · simp [h]

/-- A live identity has a readable start time. -/
theorem readable_of_live (w : World) (e : Entry) (he : isLive w e = true) :
    w.kill0 e.pid = true → ∃ t, w.procStat e.pid = .ok t := by
  intro _
  simp only [isLive, Bool.and_eq_true, decide_eq_true_eq] at he
  exact ⟨e.starttime, he.2⟩

/-- The first loop of `lock_box` stops at the first live line, when the start
times of the processes named before it can be read. -/
theorem lock_boxScan_first_live (w : World) (fuel : Nat) (st : State)
    (e : Entry) (post : PidFile) (he : isLive w e = true) :
    ∀ (pre : PidFile) (pid : Int), (∀ x ∈ pre, isLive w x = false) →
      (∀ x ∈ pre, w.kill0 x.pid = true → ∃ t, w.procStat x.pid = .ok t) →
      lock_boxScan w fuel (pre ++ e :: post) pid st = some (.ret (true, e.pid) st) := by
  intro pre
  induction pre with
  | nil =>
    intro pid _ _
    simp [lock_boxScan, valid_lock_readable w fuel e.pid e.starttime st (readable_of_live w e he),
      andThen, he]
  | cons x pre ih =>
    intro pid hpre hread
    have hx : isLive w x = false := hpre x (List.mem_cons_self _ _)
    simp only [List.cons_append, lock_boxScan,
      valid_lock_readable w fuel x.pid x.starttime st (hread x (List.mem_cons_self _ _)),
      andThen, hx]
    exact ih x.pid (fun y hy => hpre y (List.mem_cons_of_mem _ hy))
      (fun y hy => hread y (List.mem_cons_of_mem _ hy))

/-- C2 as amended: when `fopen(lock/<b>.pidlock, "a+")` succeeds, the first
live line of the file has a pid other than the broker's own, and for every
line before it the start time of its process can be read from `/proc` if the
null signal reaches that process, `lock_box(b)` returns false in the very
state it was called in: no line is appended, `free/<b>.pidlock` is neither
created nor changed, and `locked` is untouched. -/
theorem lock_box_refuses_held (w : World) (fuel : Nat) (box_id : Int) (st : State)
    (pre : PidFile) (e : Entry) (post : PidFile)
    (hopen : w.fopenLockAppend box_id = true)
    (hfile : st.lockDir box_id = some (pre ++ e :: post))
    (hpre : ∀ x ∈ pre, isLive w x = false)
    (hread : ∀ x ∈ pre, w.kill0 x.pid = true → ∃ t, w.procStat x.pid = .ok t)
    (he : isLive w e = true)
    (hpid : e.pid ≠ w.pid) :
    lock_box w fuel box_id st = some (.ret false st) ∧
    (∀ st', lock_box w fuel box_id st = some (.ret false st') →
      st'.lockDir box_id = some (pre ++ e :: post) ∧ st'.freeDir box_id = st.freeDir box_id ∧
      st'.freeDir = st.freeDir ∧ st'.locked = st.locked) := by
  have hval : lock_box w fuel box_id st = some (.ret false st) := by
    unfold lock_box
    simp only [hopen, Bool.not_true, Bool.false_eq_true, if_false, hfile, Option.getD_some]
    rw [open_existing st box_id _ hfile,
      lock_boxScan_first_live w fuel st e post he pre (-1) hpre hread]
    simp [andThen, hpid]
  refine ⟨hval, ?_⟩
  intro st' h
  rw [hval] at h
  simp only [Option.some.injEq, Outcome.ret.injEq, true_and] at h
  subst h
  exact ⟨hfile, rfl, rfl, rfl⟩

/-- Box 0 with a dead line followed by the line of the running process 77. -/
theorem lock_box_refuses_held_witness :
    lock_box hostWorld 0 0 (boxZeroState (some [⟨999999, 1⟩, ⟨77, 5⟩]) none []) =
      some (.ret false (boxZeroState (some [⟨999999, 1⟩, ⟨77, 5⟩]) none [])) :=
  (lock_box_refuses_held hostWorld 0 0 (boxZeroState (some [⟨999999, 1⟩, ⟨77, 5⟩]) none [])
    [⟨999999, 1⟩] ⟨77, 5⟩ []
    rfl rfl (by decide)
    (by
      intro x hx hk
      have hx' : x = ⟨999999, 1⟩ := by simpa using hx
      subst hx'
      exact absurd hk (by decide))
    (by decide) (by decide)).1

/-- C2 as stated fails: `lock/0.pidlock` holds the well-formed lines `0:1` and
`77:5`.  The null signal to pid 0 succeeds but there is no `/proc/0/stat`, so
the line `0:1` is not live and the first live line is that of process 77,
whose pid is not the broker's.  In the first loop `valid_lock(0, 1)` calls
`get_starttime(0)`, which finds no file and calls `panic(11)`: `lock_box(0)`
does not return false, the broker ends with exit code 11. -/
theorem lock_box_held_exits_on_unreadable_stat :
    isLive groupSignalWorld ⟨0, 1⟩ = false ∧
    isLive groupSignalWorld ⟨77, 5⟩ = true ∧
    (77 : Int) ≠ groupSignalWorld.pid ∧
    groupSignalWorld.fopenLockAppend 0 = true ∧
    ((lock_box groupSignalWorld 0 0 (boxZeroState (some [⟨0, 1⟩, ⟨77, 5⟩]) none [])).map
        fun o => (o.value, o.exited)) = some (none, some 11) := by
  decide

/-- The end of `lock_box` when both file operations succeed. -/
theorem lock_boxCommit_eq (w : World) (box_id : Int) (st : State)
    (hwrite : w.fopenFreeWrite box_id = true) (hrename : w.renameFreeToLock box_id = true) :
    lock_boxCommit w box_id st = some (.ret true (st.taken w box_id)) := by
  simp [lock_boxCommit, hwrite, hrename, State.taken]

/-- With no live line in `lock/<b>.pidlock` the broker appends its line, finds
it first among the live ones, and takes the box. -/
theorem lock_box_free (w : World) (fuel : Nat) (box_id : Int) (st : State)
    (hstat : StatReadable w)
    (hopen : w.fopenLockAppend box_id = true)
    (hwrite : w.fopenFreeWrite box_id = true)
    (hrename : w.renameFreeToLock box_id = true)
    (hdead : ∀ x ∈ (st.lockDir box_id).getD [], isLive w x = false)
    (hself : isLive w ⟨w.pid, w.pid_starttime⟩ = true) :
    lock_box w fuel box_id st = some (.ret true (st.taken w box_id)) := by
  obtain ⟨p, hp⟩ := lock_boxScan_dead w fuel hstat
    { st with lockDir := Function.update st.lockDir box_id (some ((st.lockDir box_id).getD [])) }
    ((st.lockDir box_id).getD []) (-1) hdead
  unfold lock_box
  simp only [hopen, Bool.not_true, Bool.false_eq_true, if_false]
  rw [hp]
  simp only [andThen, Bool.false_eq_true, if_false]
  rw [lock_boxRescan_won w fuel hstat _ [] hself _ hdead]
  simp only [Bool.not_true, Bool.false_eq_true, if_false]
  rw [lock_boxCommit_eq w box_id _ hwrite hrename]
  simp [State.taken, Function.update_idem]

/-- C3: when `lock/<b>.pidlock` is absent, empty or holds no live line, the
broker's own identity is live and the file operations succeed, `lock_box(b)`
returns true; afterwards `lock/<b>.pidlock` is the single line
`<ppid>:<ppid_starttime>`, `free/<b>.pidlock` does not exist, `b` has been
appended to `locked`, and nothing else has changed. -/
theorem lock_box_claims_free (w : World) (fuel : Nat) (box_id : Int) (st : State)
    (hstat : StatReadable w)
    (hopen : w.fopenLockAppend box_id = true)
    (hwrite : w.fopenFreeWrite box_id = true)
    (hrename : w.renameFreeToLock box_id = true)
    (hdead : ∀ x ∈ (st.lockDir box_id).getD [], isLive w x = false)
    (hself : isLive w ⟨w.pid, w.pid_starttime⟩ = true) :
    ∃ st', lock_box w fuel box_id st = some (.ret true st') ∧
      st'.lockDir box_id = some [⟨w.ppid, w.ppid_starttime⟩] ∧
      st'.freeDir box_id = none ∧
      st'.locked = st.locked ++ [box_id] ∧
      (∀ b, b ≠ box_id → st'.lockDir b = st.lockDir b ∧ st'.freeDir b = st.freeDir b) ∧
      st'.err = st.err ∧ st'.out = st.out ∧ st'.cmds = st.cmds := by
  refine ⟨st.taken w box_id,
    lock_box_free w fuel box_id st hstat hopen hwrite hrename hdead hself,
    by simp [State.taken], by simp [State.taken], rfl, ?_, rfl, rfl, rfl⟩
  intro b hb
  simp [State.taken, Function.update_noteq hb]

/-- Box 0 with the single dead line 999999:1. -/
theorem lock_box_claims_free_witness :
    ∃ st', lock_box hostWorld 0 0 (boxZeroState (some [⟨999999, 1⟩]) none []) =
        some (.ret true st') ∧
      st'.lockDir 0 = some [⟨hostWorld.ppid, hostWorld.ppid_starttime⟩] ∧
      st'.freeDir 0 = none ∧
      st'.locked = (boxZeroState (some [⟨999999, 1⟩]) none []).locked ++ [0] ∧
      (∀ b, b ≠ 0 →
        st'.lockDir b = (boxZeroState (some [⟨999999, 1⟩]) none []).lockDir b ∧
        st'.freeDir b = (boxZeroState (some [⟨999999, 1⟩]) none []).freeDir b) ∧
      st'.err = (boxZeroState (some [⟨999999, 1⟩]) none []).err ∧
      st'.out = (boxZeroState (some [⟨999999, 1⟩]) none []).out ∧
      st'.cmds = (boxZeroState (some [⟨999999, 1⟩]) none []).cmds :=
  lock_box_claims_free hostWorld 0 0 (boxZeroState (some [⟨999999, 1⟩]) none [])
    (by
      intro p hp
      simp only [hostWorld, Bool.or_eq_true, decide_eq_true_eq] at hp
      rcases hp with (hp | hp) | hp <;> subst hp
      · exact ⟨1000, rfl⟩
      · exact ⟨900, rfl⟩
      · exact ⟨5, rfl⟩)
    rfl rfl rfl (by decide) (by decide)

/-! ## Driver: listed boxes that are held -/

/-- The host of the examples has a readable `/proc`. -/
theorem hostWorld_statReadable : StatReadable hostWorld := by
  intro p hp
  simp only [hostWorld, Bool.or_eq_true, decide_eq_true_eq] at hp
  rcases hp with (hp | hp) | hp <;> subst hp
  · exact ⟨1000, rfl⟩
  · exact ⟨900, rfl⟩
  · exact ⟨5, rfl⟩

/-- Accepted options pass `validate_option` one after the other. -/
theorem optionsLoop_ok (w : World) (fuel : Nat) (st : State) :
    ∀ (opts : List (List Char)) (optstring : List Char),
      (∀ a ∈ opts, acceptedOption a = true) →
      ∃ s, optionsLoop w fuel opts optstring st = some (.ret s st) := by
  intro opts
  induction opts with
  | nil => intro optstring _; exact ⟨optstring, rfl⟩
  | cons a rest ih =>
    intro optstring h
    have ha : acceptedOption a = true := h a (List.mem_cons_self _ _)
    simp only [acceptedOption, Bool.and_eq_true, decide_eq_true_eq] at ha
    have hv : validate_option w fuel a st = some (.ret () st) := by
      unfold validate_option
      rw [if_neg ha.1]
      exact validate_optionLoop_ok w fuel a st a ha.2
    simp only [optionsLoop, hv, andThen]
    exact ih _ fun b hb => h b (List.mem_cons_of_mem _ hb)

/-- Valid box numbers pass `validate` one after the other. -/
theorem validateLoop_ok (w : World) (fuel : Nat) (st : State) :
    ∀ ids : List (List Char), (∀ a ∈ ids, valid w (atoi a) = true) →
      validateLoop w fuel ids st = some (.ret () st) := by
  intro ids
  induction ids with
  | nil => intro _; rfl
  | cons a rest ih =>
    intro h
    have ha : valid w (atoi a) = true := h a (List.mem_cons_self _ _)
    simp only [validateLoop, validate, ha, Bool.not_true, Bool.false_eq_true, if_false, andThen]
    exact ih fun b hb => h b (List.mem_cons_of_mem _ hb)

/-- When every listed box is held by somebody else, the loop of lock mode
only writes one "unavailable" line per box. -/
theorem lockArgsLoop_held (w : World) (fuel : Nat) (hstat : StatReadable w) :
    ∀ (ids : List (List Char)) (st : State),
      (∀ a ∈ ids, w.fopenLockAppend (atoi a) = true) →
      (∀ a ∈ ids, HeldByOther w st (atoi a)) →
      lockArgsLoop w fuel ids st =
        some (.ret () { st with err := st.err ++ ids.map fun a => .unavailable (atoi a) }) := by
  intro ids
  induction ids with
  | nil => intro st _ _; simp [lockArgsLoop]
  | cons a rest ih =>
    intro st hopen hheld
    have h1 := lock_box_held w fuel (atoi a) st hstat (hopen a (List.mem_cons_self _ _))
      (hheld a (List.mem_cons_self _ _))
    simp only [lockArgsLoop, h1, andThen, Bool.not_false, if_true]
    rw [ih (st.logErr (.unavailable (atoi a)))
      (fun b hb => hopen b (List.mem_cons_of_mem _ hb))
      (fun b hb => hheld b (List.mem_cons_of_mem _ hb))]
    simp [State.logErr]

/-- In lock mode with a list of valid box numbers, each held by a live process
other than the broker, with `/proc` readable and pass-through options that
are all accepted, `main` writes one "Isolate box <b> unavailable." line per
listed box to stderr, prints nothing, runs no command, and returns 0. -/
theorem main_listed_boxes_held (w : World) (fuel : Nat) (n : Int) (t : Rat)
    (isolate_init : Bool) (args : List (List Char)) (st : State)
    (hstat : StatReadable w)
    (hlocked : st.locked = [])
    (hids : args.takeWhile isBoxArg ≠ [])
    (hopts : ∀ a ∈ args.dropWhile isBoxArg, acceptedOption a = true)
    (hvalid : ∀ a ∈ args.takeWhile isBoxArg, valid w (atoi a) = true)
    (hopen : ∀ a ∈ args.takeWhile isBoxArg, w.fopenLockAppend (atoi a) = true)
    (hheld : ∀ a ∈ args.takeWhile isBoxArg, HeldByOther w st (atoi a)) :
    main w fuel 'l' n t isolate_init args st =
      some (.ret 0 { st with
        err := st.err ++ (args.takeWhile isBoxArg).map fun a => .unavailable (atoi a) }) := by
  obtain ⟨s, hs⟩ := optionsLoop_ok w fuel st (args.dropWhile isBoxArg) [] hopts
  have hne : ('l' : Char) ≠ 'h' := by decide
  unfold main
  simp only [if_neg hne, if_true, hs, andThen, hids, ne_eq, not_false_eq_true,
    validateLoop_ok w fuel st _ hvalid, lockArgsLoop_held w fuel hstat _ st hopen hheld,
    Bool.not_true, Bool.false_eq_true, if_false, hlocked, List.append_nil]
  cases isolate_init with
  | true => simp only [if_true, initLoop]
  | false => simp only [Bool.false_eq_true, if_false]

/-- Lock mode on the list "0" while process 77 holds box 0. -/
theorem main_listed_boxes_held_witness :
    main hostWorld 0 'l' 1 0 true [['0']] (boxZeroState (some [⟨77, 5⟩]) none []) =
      some (.ret 0 { boxZeroState (some [⟨77, 5⟩]) none [] with
        err := (boxZeroState (some [⟨77, 5⟩]) none []).err ++
          (List.takeWhile isBoxArg [['0']]).map fun a => .unavailable (atoi a) }) :=
  main_listed_boxes_held hostWorld 0 1 0 true [['0']] (boxZeroState (some [⟨77, 5⟩]) none [])
    hostWorld_statReadable rfl (by decide) (by decide) (by decide) (by decide)
    (by
      intro a ha
      have : a = ['0'] := by simpa [isBoxArg] using ha
      subst this
      exact ⟨[], ⟨77, 5⟩, [], rfl, by simp, by decide, by decide⟩)

/-- C8 at a failing input: box 0 is held by the running process 77 and the
broker is run in lock mode on the list "0".  It writes "Isolate box 0
unavailable." to stderr and prints nothing, as the claim says, but then falls
into the success path with nothing locked and `main` returns 0, not 1. -/
theorem main_listed_box_held_returns_zero :
    (main hostWorld 0 'l' 1 0 true [['0']] (boxZeroState (some [⟨77, 5⟩]) none [])).bind
        exitCode = some 0 ∧
    (main hostWorld 0 'l' 1 0 true [['0']] (boxZeroState (some [⟨77, 5⟩]) none [])).bind
        exitCode ≠ some 1 ∧
    ((main hostWorld 0 'l' 1 0 true [['0']] (boxZeroState (some [⟨77, 5⟩]) none [])).map
        fun o => o.state.err) = some [Msg.unavailable 0] ∧
    ((main hostWorld 0 'l' 1 0 true [['0']] (boxZeroState (some [⟨77, 5⟩]) none [])).map
        fun o => o.state.out) = some [] := by
  decide

/-! ## Contending brokers -/

/-- When the second broker opens the file only after the first has finished,
it finds the parent of the first as live holder and is refused. -/
theorem sequential_brokers_exclude :
    ((raceSys.run 0 sequentialSchedule).brokers.map fun b => b.result) =
      [some true, some false] ∧
    (raceSys.run 0 sequentialSchedule).holder = some ⟨11, 4001⟩ := by
  decide

/-- C1 at a failing schedule.  Broker 1 opens `lock/0.pidlock` before broker 0
renames; broker 0 completes `lock_box(0)`, which returns true and leaves its
parent 11 as holder, and ends.  Broker 1 then scans the file it had opened,
where the only line is that of the ended broker 0, appends its own line, wins
the re-scan, and renames its parent's record over the lock file: its
`lock_box(0)` returns true as well.  No release took place and both parents
are running throughout. -/
theorem lock_box_race_two_winners :
    ((raceSys.run 0 raceFirstHalf).brokers.map fun b => (b.pc, b.result, b.locked)) =
      [(Pc.exited, some true, [0]), (Pc.opened, none, [])] ∧
    (raceSys.run 0 raceFirstHalf).holder = some ⟨11, 4001⟩ ∧
    (((raceSys.run 0 raceFirstHalf).run 0 raceSecondHalf).brokers.map
        fun b => (b.pc, b.result, b.locked)) =
      [(Pc.exited, some true, [0]), (Pc.returned, some true, [0])] ∧
    ((raceSys.run 0 raceFirstHalf).run 0 raceSecondHalf).holder = some ⟨12, 4002⟩ ∧
    ((raceSys.run 0 raceFirstHalf).run 0 raceSecondHalf).running 11 = some 4001 ∧
    ((raceSys.run 0 raceFirstHalf).run 0 raceSecondHalf).running 12 = some 4002 := by
  decide

/-! ## Acquisition of several boxes -/

/-- An accepted option passes `validate_option`. -/
theorem validate_option_accept (w : World) (fuel : Nat) (s : List Char) (st : State)
    (h : acceptedOption s = true) : validate_option w fuel s st = some (.ret () st) := by
  simp only [acceptedOption, Bool.and_eq_true, decide_eq_true_eq] at h
  unfold validate_option
  rw [if_neg h.1]
  exact validate_optionLoop_ok w fuel s st s h.2

/-- Any other option takes `validate_option` to `panic(7)`. -/
theorem validate_option_reject (w : World) (fuel : Nat) (s : List Char) (st : State)
    (h : acceptedOption s = false) :
    ∃ m, validate_option w fuel s st = panic w fuel 7 (st.logErr m) := by
  unfold validate_option
  by_cases hd : s = ['-', '-']
  · exact ⟨.invalidDashDash, by rw [if_pos hd]⟩
  · refine ⟨.invalidOption s, ?_⟩
    rw [if_neg hd]
    apply validate_optionLoop_bad
    simpa [acceptedOption, hd] using h

/-- With nothing held, the loop over the pass-through options ends the broker
with exit code 7 at the first option that is not accepted. -/
theorem optionsLoop_reject (w : World) (fuel : Nat) (st : State) (hl : st.locked = []) :
    ∀ (opts : List (List Char)) (optstring : List Char),
      (∃ a ∈ opts, acceptedOption a = false) →
      ∃ m, optionsLoop w fuel opts optstring st = some (.exit 7 (st.logErr m)) := by
  intro opts
  induction opts with
  | nil => intro _ h; simp at h
  | cons a rest ih =>
    intro optstring h
    cases ha : acceptedOption a with
    | true =>
      obtain ⟨b, hb, hbad⟩ := h
      have hb' : b ∈ rest := by
        rcases List.mem_cons.mp hb with h1 | h1
        · rw [h1, ha] at hbad; exact Bool.noConfusion hbad
        · exact h1
      simp only [optionsLoop, validate_option_accept w fuel a st ha, andThen]
      exact ih _ ⟨b, hb', hbad⟩
    | false =>
      obtain ⟨m, hm⟩ := validate_option_reject w fuel a st ha
      refine ⟨m, ?_⟩
      simp only [optionsLoop, hm, panic_nil w fuel 7 _ (show (st.logErr m).locked = [] from hl),
        andThen]

/-- With nothing held, the loop over the listed boxes ends the broker with
exit code 3 at the first box number that is not valid. -/
theorem validateLoop_reject (w : World) (fuel : Nat) (st : State) (hl : st.locked = []) :
    ∀ ids : List (List Char), (∃ a ∈ ids, valid w (atoi a) = false) →
      ∃ b, valid w b = false ∧
        validateLoop w fuel ids st = some (.exit 3 (st.logErr (.invalidBoxId b))) := by
  intro ids
  induction ids with
  | nil => intro h; simp at h
  | cons a rest ih =>
    intro h
    cases ha : valid w (atoi a) with
    | true =>
      obtain ⟨b, hb, hbad⟩ := h
      have hb' : b ∈ rest := by
        rcases List.mem_cons.mp hb with h1 | h1
        · rw [h1, ha] at hbad; exact Bool.noConfusion hbad
        · exact h1
      simp only [validateLoop, validate, ha, Bool.not_true, Bool.false_eq_true, if_false,
        andThen]
      exact ih ⟨b, hb', hbad⟩
    | false =>
      refine ⟨atoi a, ha, ?_⟩
      simp only [validateLoop, validate, ha, Bool.not_false, if_true,
        panic_nil w fuel 3 _ (show (st.logErr (.invalidBoxId (atoi a))).locked = [] from hl),
        andThen]

/-- In lock mode and in free mode, `main` started with nothing held ends with
exit code 7 when a pass-through option is not accepted. -/
theorem main_reject_option (w : World) (fuel : Nat) (mode : Char) (n : Int) (t : Rat)
    (isolate_init : Bool) (args : List (List Char)) (st : State)
    (hmode : mode = 'l' ∨ mode = 'f') (hl : st.locked = [])
    (hbad : ∃ a ∈ args.dropWhile isBoxArg, acceptedOption a = false) :
    ∃ m, main w fuel mode n t isolate_init args st = some (.exit 7 (st.logErr m)) := by
  obtain ⟨m, hm⟩ := optionsLoop_reject w fuel st hl (args.dropWhile isBoxArg) [] hbad
  refine ⟨m, ?_⟩
  rcases hmode with h | h <;> subst h
  · have hne : ('l' : Char) ≠ 'h' := by decide
    unfold main
    simp only [if_neg hne, if_true, hm, andThen]
  · have hne : ('f' : Char) ≠ 'h' := by decide
    have hne2 : ('f' : Char) ≠ 'l' := by decide
    unfold main
    simp only [if_neg hne, if_neg hne2, if_true, hm, andThen]

/-- In lock mode and in free mode, `main` started with nothing held ends with
exit code 3 when the options are accepted and a listed box number is not
valid. -/
theorem main_reject_box_id (w : World) (fuel : Nat) (mode : Char) (n : Int) (t : Rat)
    (isolate_init : Bool) (args : List (List Char)) (st : State)
    (hmode : mode = 'l' ∨ mode = 'f') (hl : st.locked = [])
    (hopts : ∀ a ∈ args.dropWhile isBoxArg, acceptedOption a = true)
    (hbad : ∃ a ∈ args.takeWhile isBoxArg, valid w (atoi a) = false) :
    ∃ b, valid w b = false ∧
      main w fuel mode n t isolate_init args st =
        some (.exit 3 (st.logErr (.invalidBoxId b))) := by
  obtain ⟨s, hs⟩ := optionsLoop_ok w fuel st (args.dropWhile isBoxArg) [] hopts
  obtain ⟨b, hb, hv⟩ := validateLoop_reject w fuel st hl (args.takeWhile isBoxArg) hbad
  have hids : args.takeWhile isBoxArg ≠ [] := by
    obtain ⟨a, ha, _⟩ := hbad
    exact List.ne_nil_of_mem ha
  refine ⟨b, hb, ?_⟩
  rcases hmode with h | h <;> subst h
  · have hne : ('l' : Char) ≠ 'h' := by decide
    unfold main
    simp only [if_neg hne, if_true, hs, andThen, hids, ne_eq, not_false_eq_true, hv]
  · have hne : ('f' : Char) ≠ 'h' := by decide
    have hne2 : ('f' : Char) ≠ 'l' := by decide
    unfold main
    simp only [if_neg hne, if_neg hne2, if_true, hs, andThen, hids, if_false, hv]

/-! ## Validation of options and box numbers -/

/-- C9: `validate_option(s)` returns normally exactly when `s` is not "--" and
every character of `s` is an ASCII letter, an ASCII digit or one of `-`, `=`,
`/`, `:`; on any other `s` it reaches `panic(7)`, which with nothing held ends
the broker with exit code 7, and that is how `main` ends in lock mode and in
free mode when `s` is among its pass-through options.  The options "--cg",
"--dir=/foo:bar" and "-b0" are accepted; "--" and every string with a blank,
tab, newline or semicolon are refused. -/
theorem validate_option_accepts_iff (w : World) (fuel : Nat) (s : List Char) (st : State) :
    (acceptedOption s = true → validate_option w fuel s st = some (.ret () st)) ∧
    (acceptedOption s = false →
      ∃ m, validate_option w fuel s st = panic w fuel 7 (st.logErr m)) ∧
    (acceptedOption s = false → st.locked = [] →
      ∃ m, validate_option w fuel s st = some (.exit 7 (st.logErr m))) ∧
    ((∃ st', validate_option w fuel s st = some (.ret () st')) ↔ acceptedOption s = true) ∧
    (∀ (mode : Char) (n : Int) (t : Rat) (isolate_init : Bool) (args : List (List Char)),
      (mode = 'l' ∨ mode = 'f') → st.locked = [] → s ∈ args.dropWhile isBoxArg →
      acceptedOption s = false →
      ∃ m, main w fuel mode n t isolate_init args st = some (.exit 7 (st.logErr m))) ∧
    acceptedOption "--cg".toList = true ∧ acceptedOption "--dir=/foo:bar".toList = true ∧
    acceptedOption "-b0".toList = true ∧ acceptedOption "--".toList = false ∧
    (∀ c ∈ s, (c = ' ' ∨ c = '\t' ∨ c = '\n' ∨ c = ';') → acceptedOption s = false) := by
  refine ⟨validate_option_accept w fuel s st, validate_option_reject w fuel s st, ?_, ?_, ?_,
    by decide, by decide, by decide, by decide, ?_⟩
  · intro h hl
    obtain ⟨m, hm⟩ := validate_option_reject w fuel s st h
    refine ⟨m, ?_⟩
    rw [hm]
    exact panic_nil w fuel 7 _ hl
  · constructor
    · rintro ⟨st', h⟩
      by_contra hn
      simp only [Bool.not_eq_true] at hn
      obtain ⟨m, hm⟩ := validate_option_reject w fuel s st hn
      rw [hm] at h
      exact panic_ne_ret w fuel 7 _ () st' h
    · intro h
      exact ⟨st, validate_option_accept w fuel s st h⟩
  · intro mode n t isolate_init args hmode hl hs hbad
    exact main_reject_option w fuel mode n t isolate_init args st hmode hl ⟨s, hs, hbad⟩
  · intro c hc hbad
    simp only [acceptedOption, Bool.and_eq_false_iff]
    right
    rw [List.all_eq_false]
    refine ⟨c, hc, ?_⟩
    rcases hbad with h | h | h | h <;> subst h <;> decide

/-- The option "--" given to the host of the examples with nothing held: exit
code 7. -/
theorem validate_option_accepts_iff_witness :
    ∃ m, validate_option hostWorld 0 ['-', '-'] (boxZeroState none none []) =
      some (.exit 7 ((boxZeroState none none []).logErr m)) :=
  (validate_option_accepts_iff hostWorld 0 ['-', '-'] (boxZeroState none none [])).2.2.1
    (by decide) rfl

/-- A box whose file in `lock/` can be read, starts with a line carrying the
parent's pid or the broker's own, and can be renamed, is released: the cleanup
command is run and the file moves to `free/`. -/
theorem freelock_owned (w : World) (box_id : Int) (optstring : Option (List Char))
    (st : State) (e : Entry) (rest : PidFile)
    (hfile : st.lockDir box_id = some (e :: rest))
    (hread : w.fopenLockRead box_id = true)
    (hrename : w.renameLockToFree box_id = true)
    (hown : e.pid = w.ppid ∨ e.pid = w.pid) :
    freelock w box_id optstring st =
      (0, { st with
              lockDir := Function.update st.lockDir box_id none
              freeDir := Function.update st.freeDir box_id (st.lockDir box_id)
              cmds := st.cmds ++ [.cleanup optstring box_id] }) := by
  have hcond : ¬ (e.pid ≠ w.ppid ∧ e.pid ≠ w.pid) := by tauto
  simp only [freelock, hread, if_true, hfile, hcond, if_false, hrename, State.system]

/-- With enough fuel, `releaselocked` returns when every held box can be
released and no box is held twice: nothing is held afterwards, one cleanup
command has been run per box in the order of `locked`, every held box has
moved from `lock/` to `free/`, and nothing else has changed. -/
theorem releaselocked_releasable (w : World) :
    ∀ (l : List Int) (fuel : Nat) (st : State), st.locked = l → l.Nodup → l.length ≤ fuel →
      (∀ b ∈ l, w.fopenLockRead b = true ∧ w.renameLockToFree b = true ∧
        ∃ e rest, st.lockDir b = some (e :: rest) ∧ (e.pid = w.ppid ∨ e.pid = w.pid)) →
      ∃ st', releaselocked w fuel st = some st' ∧ st'.locked = [] ∧
        st'.err = st.err ∧ st'.out = st.out ∧
        st'.cmds = st.cmds ++ l.map (fun b => Cmd.cleanup none b) ∧
        (∀ b ∈ l, st'.lockDir b = none ∧ st'.freeDir b = st.lockDir b) ∧
        (∀ b, b ∉ l → st'.lockDir b = st.lockDir b ∧ st'.freeDir b = st.freeDir b) := by
  intro l
  induction l with
  | nil =>
    intro fuel st hl _ _ _
    exact ⟨st, releaselocked_nil w fuel st hl, hl, rfl, rfl, by simp, by simp,
      fun b _ => ⟨rfl, rfl⟩⟩
  | cons b rest ih =>
    intro fuel st hl hnd hfuel hheld
    cases fuel with
    | zero => simp at hfuel
    | succ n =>
      obtain ⟨hread, hrename, e, tl, hfile, hown⟩ := hheld b (List.mem_cons_self _ _)
      have hfree := freelock_owned w b none st e tl hfile hread hrename hown
      have hb : b ∉ rest := (List.nodup_cons.mp hnd).1
      obtain ⟨st', hres, hnil, herr, hout, hcmds, hin, hothers⟩ := ih n
        { st with
            lockDir := Function.update st.lockDir b none
            freeDir := Function.update st.freeDir b (st.lockDir b)
            cmds := st.cmds ++ [.cleanup none b]
            locked := rest }
        rfl (List.nodup_cons.mp hnd).2 (by simpa using hfuel)
        (by
          intro b' hb'
          have hne : b' ≠ b := fun h => hb (h ▸ hb')
          simp only [Function.update_noteq hne]
          exact hheld b' (List.mem_cons_of_mem _ hb'))
      refine ⟨st', ?_, hnil, herr, hout, ?_, ?_, ?_⟩
      · unfold releaselocked
        rw [hl]
        simp only [hfree, if_true]
        exact hres
      · rw [hcmds]
        simp
      · intro b' hb'
        rcases List.mem_cons.mp hb' with h1 | h1
        · subst h1
          have := hothers b' hb
          simp only [Function.update_same] at this
          exact this
        · have hne : b' ≠ b := fun h => hb (h ▸ h1)
          have := hin b' h1
          simp only [Function.update_noteq hne] at this
          exact this
      · intro b' hb'
        have hne : b' ≠ b := fun h => hb' (h ▸ List.mem_cons_self _ _)
        have hnr : b' ∉ rest := fun h => hb' (List.mem_cons_of_mem _ h)
        have := hothers b' hnr
        simp only [Function.update_noteq hne] at this
        exact this

/-- The function `atoi` keeps the low 32 bits: the text 4294967296 names box
0, and 2147483648 names a negative box. -/
theorem atoi_wraps :
    atoi "4294967296".toList = 0 ∧ atoi "2147483648".toList = -2147483648 ∧
    atoi "3".toList = 3 ∧ atoi " -1".toList = -1 := by
  decide

/-- C10: `valid(b)` holds exactly when `0 <= b < isolate_boxes`; `validate(b)`
returns `b` and leaves the state alone when `valid(b)` holds.  Otherwise it
writes its message, runs `releaselocked()` and ends the broker with
`exit(3)`, without returning: with nothing held the state is left as it is;
with boxes held that can be released, each is released in the order of
`locked` (cleanup command run, file moved from `lock/` to `free/`) before the
exit.  This is how `main` ends in lock mode and in free mode when `b` is
what `atoi` reads from a listed argument.  With a positive number of boxes,
-1 and `isolate_boxes` are refused and 0 and `isolate_boxes - 1` are
accepted. -/
theorem validate_box_id (w : World) (fuel : Nat) (box_id : Int) (st : State) :
    (valid w box_id = true ↔ 0 ≤ box_id ∧ box_id < w.isolate_boxes) ∧
    (valid w box_id = true → validate w fuel box_id st = some (.ret box_id st)) ∧
    (valid w box_id = false →
      validate w fuel box_id st =
        (releaselocked w fuel (st.logErr (.invalidBoxId box_id))).map (Outcome.exit 3)) ∧
    (valid w box_id = false → st.locked = [] →
      validate w fuel box_id st = some (.exit 3 (st.logErr (.invalidBoxId box_id)))) ∧
    (valid w box_id = false → st.locked.Nodup → st.locked.length ≤ fuel →
      (∀ b ∈ st.locked, w.fopenLockRead b = true ∧ w.renameLockToFree b = true ∧
        ∃ e rest, st.lockDir b = some (e :: rest) ∧ (e.pid = w.ppid ∨ e.pid = w.pid)) →
      ∃ st', validate w fuel box_id st = some (.exit 3 st') ∧ st'.locked = [] ∧
        st'.err = st.err ++ [.invalidBoxId box_id] ∧ st'.out = st.out ∧
        st'.cmds = st.cmds ++ st.locked.map (fun b => Cmd.cleanup none b) ∧
        (∀ b ∈ st.locked, st'.lockDir b = none ∧ st'.freeDir b = st.lockDir b) ∧
        (∀ b, b ∉ st.locked → st'.lockDir b = st.lockDir b ∧ st'.freeDir b = st.freeDir b)) ∧
    (valid w box_id = false → ∀ b st', validate w fuel box_id st ≠ some (.ret b st')) ∧
    (∀ (mode : Char) (n : Int) (t : Rat) (isolate_init : Bool) (args : List (List Char)),
      (mode = 'l' ∨ mode = 'f') → st.locked = [] →
      (∀ a ∈ args.dropWhile isBoxArg, acceptedOption a = true) →
      (∃ a ∈ args.takeWhile isBoxArg, atoi a = box_id) → valid w box_id = false →
      ∃ b, valid w b = false ∧
        main w fuel mode n t isolate_init args st =
          some (.exit 3 (st.logErr (.invalidBoxId b)))) ∧
    (0 < w.isolate_boxes →
      valid w (-1) = false ∧ valid w w.isolate_boxes = false ∧
      valid w 0 = true ∧ valid w (w.isolate_boxes - 1) = true) := by
  have hrej : valid w box_id = false →
      validate w fuel box_id st =
        (releaselocked w fuel (st.logErr (.invalidBoxId box_id))).map (Outcome.exit 3) := by
    intro h
    simp [validate, h, panic]
  refine ⟨?_, ?_, hrej, ?_, ?_, ?_, ?_, ?_⟩
  · simp [valid]
  · intro h
    simp [validate, h]
  · intro h hl
    rw [hrej h, releaselocked_nil w fuel _ (show (st.logErr _).locked = [] from hl)]
    rfl
  · intro h hnd hfuel hheld
    obtain ⟨st', hres, hnil, herr, hout, hcmds, hin, hothers⟩ :=
      releaselocked_releasable w st.locked fuel (st.logErr (.invalidBoxId box_id)) rfl hnd hfuel
        hheld
    exact ⟨st', by rw [hrej h, hres]; rfl, hnil, herr, hout, hcmds, hin, hothers⟩
  · intro h b st'
    rw [hrej h]
    cases releaselocked w fuel (st.logErr (.invalidBoxId box_id)) <;> simp
  · intro mode n t isolate_init args hmode hl hopts hmem hbad
    obtain ⟨a, ha, hab⟩ := hmem
    exact main_reject_box_id w fuel mode n t isolate_init args st hmode hl hopts
      ⟨a, ha, by rw [hab]; exact hbad⟩
  · intro hpos
    simp only [valid, Bool.and_eq_true, decide_eq_true_eq, Bool.and_eq_false_iff,
      decide_eq_false_iff_not]
    refine ⟨?_, ?_, ?_, ?_⟩ <;> omega

/-- Box number 4 on the host of the examples, which has boxes 0 to 3, while
box 0 is held for the parent: box 0 is released, then exit code 3. -/
theorem validate_box_id_witness :
    ∃ st', validate hostWorld 1 4 (boxZeroState (some [⟨99, 900⟩]) none [0]) =
        some (.exit 3 st') ∧ st'.locked = [] ∧
      st'.err = (boxZeroState (some [⟨99, 900⟩]) none [0]).err ++ [.invalidBoxId 4] ∧
      st'.out = (boxZeroState (some [⟨99, 900⟩]) none [0]).out ∧
      st'.cmds = (boxZeroState (some [⟨99, 900⟩]) none [0]).cmds ++
        (boxZeroState (some [⟨99, 900⟩]) none [0]).locked.map (fun b => Cmd.cleanup none b) ∧
      (∀ b ∈ (boxZeroState (some [⟨99, 900⟩]) none [0]).locked,
        st'.lockDir b = none ∧
        st'.freeDir b = (boxZeroState (some [⟨99, 900⟩]) none [0]).lockDir b) ∧
      (∀ b, b ∉ (boxZeroState (some [⟨99, 900⟩]) none [0]).locked →
        st'.lockDir b = (boxZeroState (some [⟨99, 900⟩]) none [0]).lockDir b ∧
        st'.freeDir b = (boxZeroState (some [⟨99, 900⟩]) none [0]).freeDir b) :=
  (validate_box_id hostWorld 1 4 (boxZeroState (some [⟨99, 900⟩]) none [0])).2.2.2.2.1
    (by decide) (by decide) (by decide)
    (by
      intro b hb
      have hb' : b = 0 := by simpa [boxZeroState] using hb
      subst hb'
      exact ⟨rfl, rfl, ⟨99, 900⟩, [], rfl, Or.inl rfl⟩)

/-! ## The step machine against the function -/

/-- The step machine and the function `lock_box` agree for a broker running
alone: on a box without files, on a dead holder, on a live holder, on a dead
line followed by a live holder with a file in `free/`, and on a file whose
first live line is the broker's own. -/
theorem solo_steps_agree_with_lock_box :
    soloAgrees (soloSys [] none none) = true ∧
    soloAgrees (soloSys [[⟨999999, 1⟩]] (some 0) none) = true ∧
    soloAgrees (soloSys [[⟨77, 5⟩]] (some 0) none) = true ∧
    soloAgrees (soloSys [[⟨999999, 1⟩, ⟨77, 5⟩], [⟨1, 1⟩]] (some 0) (some 1)) = true ∧
    soloAgrees (soloSys [[⟨999999, 1⟩], [⟨1, 1⟩]] (some 0) (some 1)) = true ∧
    soloAgrees (soloSys [[⟨100, 1000⟩, ⟨77, 5⟩]] (some 0) none) = true := by
  decide

end Isolock
